import Mathlib

/-!
Shallow embedding of `src/main.py`, a single-user authenticated audio player.

The embedding covers the parts of the program the specification makes claims
about: path confinement (`validate_within_media_root`), the file-backed
progress store (`ProgressStore`), session and CSRF handling
(`ensure_csrf_token`, `validate_csrf_token`, `login_submit`), the directory
catalog (`list_directory`) and the route handlers (`index`, `/media`,
`GET /api/progress`, `POST /api/progress`).

Modelling conventions:
* Absolute filesystem paths are lists of path components (`List String`);
  the empty list is the filesystem root `/`.
* Python floats are modelled as exact rationals (`ℚ`); the literal `0.95`
  is the exact rational `19/20`.
* The JSON library (`json.loads` / `json.dumps`) is an external collaborator
  and is passed in as a `decode` / `encode` function pair.
* The filesystem is an external collaborator modelled as a partial map from
  absolute paths to nodes (`FS`).
-/

/-- Python `str.lower()`, character by character (the source only compares
ASCII file names, where `Char.toLower` agrees with Python). -/
def pyLower (s : String) : String :=
  String.mk (s.toList.map Char.toLower)

/-- Code-point lexicographic string comparison, as Python `<=` on `str`. -/
def charListLE : List Char → List Char → Bool
  | [], _ => true
  | _ :: _, [] => false
  | c₁ :: r₁, c₂ :: r₂ => if c₁ = c₂ then charListLE r₁ r₂ else decide (c₁ < c₂)

/-- Python `<=` on strings, via the code-point order on the characters. -/
def strLE (a b : String) : Bool :=
  charListLE a.toList b.toList

/-- Python `str.startswith` for the one-character patterns the source uses
(`"."` for hidden names and `"/"` for absolute paths). -/
def pyStartsWith (s : String) (c : Char) : Bool :=
  match s.toList with
  | [] => false
  | c₁ :: _ => c₁ == c

/-- Python `str.split("/")`: every maximal run between slashes, keeping
empty pieces, so the empty string yields `[""]`. -/
def splitSlash (s : String) : List String :=
  (s.toList.foldr (fun c acc =>
    if c = '/' then [] :: acc
    else (c :: acc.headD []) :: acc.tail) [[]]).map String.mk

/-- Python `str.strip()`: drop leading and trailing whitespace. -/
def pyStrip (s : String) : String :=
  String.mk (((s.toList.dropWhile Char.isWhitespace).reverse.dropWhile
    Char.isWhitespace).reverse)

/-- A path segment kept by `pathlib` after construction: empty and `.`
segments are dropped when a path is built, while `..` survives until
`Path.resolve`. -/
inductive Seg where
  | dotdot : Seg
  | name : String → Seg
deriving DecidableEq

/-- Resolution of trailing segments against an absolute base directory, as
`Path.resolve` treats `..` on POSIX: it removes the last component, and at
the filesystem root `..` stays at the root.  (Symbolic links are outside the
model.) -/
def resolveSegs (base : List String) (segs : List Seg) : List String :=
  segs.foldl (fun acc s =>
    match s with
    | .dotdot => acc.dropLast
    | .name n => acc ++ [n]) base

/-- Parsing of a relative path string into `pathlib` segments: split on `/`,
drop empty and `.` parts, keep `..`. -/
def parseSegs (s : String) : List Seg :=
  (splitSlash s).filterMap (fun part =>
    if part = "" then none
    else if part = "." then none
    else if part = ".." then some .dotdot
    else some (.name part))

/-- An unresolved `pathlib` path: an absolute base plus trailing raw
segments, resolved only when `.resolve` is called. -/
structure PyPath where
  base : List String
  segs : List Seg
deriving DecidableEq

/-- The `Path.resolve()` call: canonicalize the joined path. -/
def PyPath.resolve (p : PyPath) : List String :=
  resolveSegs p.base p.segs

/-- The `MEDIA_ROOT / relative_path` join: a path string starting with `/`
replaces the root entirely (pathlib join semantics); otherwise the segments
are appended under the root. -/
def joinPath (root : List String) (s : String) : PyPath :=
  if pyStartsWith s '/' then ⟨[], parseSegs s⟩ else ⟨root, parseSegs s⟩

/-- The `pathlib` `parents` sequence of an absolute path: all proper
ancestors, from the immediate parent down to the filesystem root. For
`/a/b/c` this is `[/a/b, /a, /]`. -/
def parents (p : List String) : List (List String) :=
  ((List.range p.length).map (fun k => p.take k)).reverse

/-- An `HTTPException` as raised by the handlers: status code and detail. -/
structure HTTPError where
  status : Nat
  detail : String
deriving DecidableEq

/-- The `PathEscape` client error raised by `validate_within_media_root`. -/
def pathEscapeError : HTTPError :=
  ⟨400, "Requested path is outside the media root"⟩

/-- `validate_within_media_root` from `src/main.py`: resolve the target and
reject it unless the media root is the result itself or one of its
ancestors. -/
def validate_within_media_root (root : List String) (target : PyPath) :
    Except HTTPError (List String) :=
  let resolved := target.resolve
  if root ∉ parents resolved ∧ resolved ≠ root then .error pathEscapeError
  else .ok resolved

/-- A stored per-file progress record `{position, duration, played}`. -/
structure ProgressRecord where
  position : ℚ
  duration : ℚ
  played : Bool
deriving DecidableEq

/-- The in-memory JSON object of the progress file: an insertion-ordered
mapping from relative path to record, as a Python `dict`. -/
abbrev StoreMap := List (String × ProgressRecord)

/-- Python `dict.get`: the value bound to the key, if present. -/
def dictGet : StoreMap → String → Option ProgressRecord
  | [], _ => none
  | (k₁, v₁) :: rest, k => if k₁ = k then some v₁ else dictGet rest k

/-- Python `data[key] = payload`: update in place if the key exists,
otherwise append the new binding at the end. -/
def dictInsert : StoreMap → String → ProgressRecord → StoreMap
  | [], k, v => [(k, v)]
  | (k₁, v₁) :: rest, k, v =>
      if k₁ = k then (k, v) :: rest else (k₁, v₁) :: dictInsert rest k v

/-- `bool(existing.get("played"))`: the stored flag, `false` when the record
is absent. -/
def playedOf : Option ProgressRecord → Bool
  | some r => r.played
  | none => false

/-- The state of the backing `progress.json` file: missing, or present with
raw textual content. -/
inductive FileState where
  | missing : FileState
  | content : String → FileState
deriving DecidableEq

/-- `ProgressStore._load`: a missing file, blank content, or content the
JSON decoder rejects are all treated as the empty mapping; the function is
total, so corruption never propagates to the caller as an error. -/
def ProgressStore.load (decode : String → Option StoreMap) :
    FileState → StoreMap
  | .missing => []
  | .content s =>
      if pyStrip s = "" then []
      else
        match decode s with
        | some m => m
        | none => []

/-- `ProgressStore.get`: load the file and look the key up. -/
def ProgressStore.get (decode : String → Option StoreMap) (file : FileState)
    (key : String) : Option ProgressRecord :=
  dictGet (ProgressStore.load decode file) key

/-- `ProgressStore.set`: load the file, bind the key to the new payload, and
write the whole encoded mapping back. -/
def ProgressStore.set (decode : String → Option StoreMap)
    (encode : StoreMap → String) (file : FileState) (key : String)
    (position duration : ℚ) (played : Bool) : FileState :=
  .content (encode (dictInsert (ProgressStore.load decode file) key
    ⟨position, duration, played⟩))

/-- The per-client session: the `authenticated` flag and the stored CSRF
token (`none` when the session key is absent). -/
structure Session where
  authenticated : Bool
  csrf : Option String
deriving DecidableEq

/-- Python `str.isascii()`: every code point below 128. -/
def strIsAscii (s : String) : Bool :=
  s.toList.all (fun c => c.toNat < 128)

/-- `ensure_csrf_token`: return the stored token, or mint a fresh one and
store it when the session holds none (or a falsy empty one). The fresh
value produced by `secrets.token_urlsafe(32)` is passed in as `mint`. -/
def ensure_csrf_token (s : Session) (mint : String) : String × Session :=
  match s.csrf with
  | some t => if t.isEmpty then (mint, { s with csrf := some mint }) else (t, s)
  | none => (mint, { s with csrf := some mint })

/-- `secrets.compare_digest` on strings: equality when both operands are
ASCII-only, a `TypeError` (modelled as `none`) otherwise. -/
def compare_digest (a b : String) : Option Bool :=
  if strIsAscii a && strIsAscii b then some (a == b) else none

/-- `validate_csrf_token`: false when either side is absent or falsy,
otherwise a digest comparison with the `TypeError` branch mapped to
false. -/
def validate_csrf_token (s : Session) (token : String) : Bool :=
  match s.csrf with
  | none => false
  | some expected =>
      if expected.isEmpty || token.isEmpty then false
      else
        match compare_digest token expected with
        | some r => r
        | none => false

/-- `is_authenticated`: the session's authenticated flag. -/
def is_authenticated (s : Session) : Bool :=
  s.authenticated

/-- The outcome of `POST /login`: a 400 re-render on bad CSRF, a 303
redirect on success, or a 401 re-render on a wrong password.  The two
re-render constructors carry the error message and the CSRF token placed in
the form. -/
inductive LoginResult where
  | badCsrf : String → String → LoginResult
  | redirectTo : String → LoginResult
  | loginFailed : String → String → LoginResult
deriving DecidableEq

/-- The redirect destination after a successful login: the unquoted
`next_path` when it is a same-origin absolute path, the index otherwise.
`uq` is `urllib.parse.unquote`. -/
def loginDestination (next_path : String) (uq : String → String) : String :=
  if next_path = "" then "/"
  else if pyStartsWith (uq next_path) '/' then uq next_path else "/"

/-- `login_submit` from `src/main.py`: CSRF check, then password check; on
success set the authenticated flag, drop the session token and mint a new
one; on failure re-render the form.  `mint` is the fresh random token used
by any `ensure_csrf_token` call made in the branch taken. -/
def login_submit (s : Session) (_username password csrf_token next_path : String)
    (authPassword : String) (uq : String → String) (mint : String) :
    LoginResult × Session :=
  if validate_csrf_token s csrf_token = false then
    let ts := ensure_csrf_token s mint
    (.badCsrf "Session expired. Please try again." ts.1, ts.2)
  else if password = authPassword then
    let s₁ : Session := { s with authenticated := true, csrf := none }
    let ts := ensure_csrf_token s₁ mint
    (.redirectTo (loginDestination next_path uq), ts.2)
  else
    let ts := ensure_csrf_token s mint
    (.loginFailed "Invalid username or password" ts.1, ts.2)

/-- A directory child as seen by `Path.iterdir`: its final name and whether
it is a directory (non-directory children are regular files in this
model). -/
structure FSEntry where
  name : String
  isDir : Bool
deriving DecidableEq

/-- A filesystem node: a directory with its children, or a regular file. -/
inductive FSNode where
  | dir : List FSEntry → FSNode
  | file : FSNode
deriving DecidableEq

/-- The filesystem: a partial map from resolved absolute paths to nodes. -/
abbrev FS := List String → Option FSNode

/-- The `AUDIO_EXTENSIONS` allow-list from `src/main.py`. -/
def AUDIO_EXTENSIONS : List String :=
  [".mp3", ".wav", ".ogg", ".m4a", ".flac", ".aac", ".opus"]

/-- `pathlib` `Path.suffix` of a file name: the final `"." + ext` part when
the last dot sits strictly inside the name (so `.hidden` and trailing dots
have no suffix). -/
def pySuffix (name : String) : String :=
  let cs := name.toList
  match cs.reverse.findIdx? (fun c => c == '.') with
  | none => ""
  | some j =>
      let i := cs.length - 1 - j
      if 0 < i ∧ i < cs.length - 1 then String.mk (cs.drop i) else ""

/-- The sort key comparison used by `list_directory`:
`key=lambda p: (not p.is_dir(), p.name.lower())`, i.e. directories first,
then case-insensitive name. -/
def entryLE (a b : FSEntry) : Bool :=
  if a.isDir = b.isDir then strLE (pyLower a.name) (pyLower b.name)
  else a.isDir

/-- `entryLE` as a relation, for use with `List.insertionSort`. -/
def entryRel (a b : FSEntry) : Prop :=
  entryLE a b = true

instance : DecidableRel entryRel :=
  fun a b => inferInstanceAs (Decidable (entryLE a b = true))

/-- A subdirectory row of the listing (also used for breadcrumbs). -/
structure DirectoryEntry where
  name : String
  path : String
deriving DecidableEq

/-- An audio file row of the listing, annotated with the played flag. -/
structure AudioEntry where
  name : String
  path : String
  played : Bool
deriving DecidableEq

/-- The result of `list_directory`. -/
structure DirListing where
  directories : List DirectoryEntry
  audio_files : List AudioEntry
deriving DecidableEq

/-- `str(entry.relative_to(MEDIA_ROOT))` for a child named `name` of the
resolved directory `dirp` under the root. -/
def relOf (root dirp : List String) (name : String) : String :=
  String.intercalate "/" (dirp.drop root.length ++ [name])

/-- The loop body of `list_directory` over the sorted children: skip hidden
names, collect directories, collect allow-listed audio files with their
played flag from the store. -/
def classify (root dirp : List String) (store : StoreMap) :
    List FSEntry → List DirectoryEntry × List AudioEntry
  | [] => ([], [])
  | e :: rest =>
      let tail := classify root dirp store rest
      if pyStartsWith e.name '.' then tail
      else if e.isDir then
        (⟨e.name, relOf root dirp e.name⟩ :: tail.1, tail.2)
      else if pyLower (pySuffix e.name) ∈ AUDIO_EXTENSIONS then
        (tail.1, ⟨e.name, relOf root dirp e.name,
          playedOf (dictGet store (relOf root dirp e.name))⟩ :: tail.2)
      else tail

/-- The body of `list_directory` once the directory's children are known:
a stable sort by `(not is_dir, name.lower())` followed by the
classification loop.  Python's `sorted` is modelled by insertion sort,
which computes a stably sorted permutation just as Timsort does. -/
def buildListing (root dirp : List String) (store : StoreMap)
    (entries : List FSEntry) : DirListing :=
  let sortedEntries := List.insertionSort entryRel entries
  let p := classify root dirp store sortedEntries
  ⟨p.1, p.2⟩

/-- `list_directory` from `src/main.py`: confine the requested directory,
require it to exist and be a directory, then build the listing. -/
def list_directory (root : List String) (fs : FS) (store : StoreMap)
    (relative_path : String) : Except HTTPError DirListing :=
  match validate_within_media_root root (joinPath root relative_path) with
  | .error e => .error e
  | .ok directory =>
      match fs directory with
      | some (.dir entries) => .ok (buildListing root directory store entries)
      | _ => .error ⟨404, "Directory not found"⟩

/-- `Path(relative_path).parts`: split on `/`, drop empty and `.` parts
(`..` parts survive). -/
def pathParts (s : String) : List String :=
  (splitSlash s).filter (fun part => !(part == "") && !(part == "."))

/-- The accumulator loop of `breadcrumb`. -/
def breadcrumbAux (acc : List String) : List String → List DirectoryEntry
  | [] => []
  | part :: rest =>
      ⟨part, String.intercalate "/" (acc ++ [part])⟩ ::
        breadcrumbAux (acc ++ [part]) rest

/-- `breadcrumb` from `src/main.py`. -/
def breadcrumb (relative_path : String) : List DirectoryEntry :=
  if relative_path = "" then [] else breadcrumbAux [] (pathParts relative_path)

/-- `str(Path(path).parent)` for a relative path string. -/
def pyParent (path : String) : String :=
  let parts := pathParts path
  if parts.length ≤ 1 then "." else String.intercalate "/" parts.dropLast

/-- A handler outcome: a successful payload, an HTTP redirect, or an
`HTTPException` with status and detail. -/
inductive HResp (α : Type) where
  | ok : α → HResp α
  | redirect : String → HResp α
  | error : Nat → String → HResp α
deriving DecidableEq

/-- `Path.suffix` of a resolved absolute path: the suffix of its final
component. -/
def pathSuffix (p : List String) : String :=
  pySuffix (p.getLastD "")

/-- `get_audio_file` from `src/main.py`: confine the path, require an
existing regular file, require an allow-listed extension. -/
def get_audio_file (root : List String) (fs : FS) (relative_path : String) :
    Except HTTPError (List String) :=
  match validate_within_media_root root (joinPath root relative_path) with
  | .error e => .error e
  | .ok file_path =>
      if fs file_path = some .file then
        if pyLower (pathSuffix file_path) ∈ AUDIO_EXTENSIONS then .ok file_path
        else .error ⟨400, "Unsupported file type"⟩
      else .error ⟨404, "Audio file not found"⟩

/-- The template context built by the index route. -/
structure IndexPage where
  current_path : String
  breadcrumbs : List DirectoryEntry
  directories : List DirectoryEntry
  audio_files : List AudioEntry
  parent_path : Option String
  csrf_token : String
deriving DecidableEq

/-- `login_redirect` from `src/main.py`: a 303 redirect to the login page
carrying the quoted current location as `next`.  `quoteF` is
`urllib.parse.quote`. -/
def login_redirect (location : String) (quoteF : String → String) : String :=
  "/login?next=" ++ quoteF location

/-- The `GET /` handler: authentication gate, then directory listing,
breadcrumbs, parent path and CSRF token. `location` is the request's own
URL (path plus query), used only for the login redirect. -/
def index_handler (root : List String) (fs : FS) (store : StoreMap)
    (s : Session) (path location : String) (quoteF : String → String)
    (mint : String) : HResp IndexPage × Session :=
  if is_authenticated s then
    match list_directory root fs store path with
    | .error e => (.error e.status e.detail, s)
    | .ok directory_data =>
        let parent_path : Option String :=
          if path = "" then none
          else if pyParent path = "." then some "" else some (pyParent path)
        let ts := ensure_csrf_token s mint
        (.ok ⟨path, breadcrumb path, directory_data.directories,
          directory_data.audio_files, parent_path, ts.1⟩, ts.2)
  else (.redirect (login_redirect location quoteF), s)

/-- The `GET /media` handler: authentication gate, then the confined audio
file to be streamed. -/
def media_handler (root : List String) (fs : FS) (s : Session)
    (path : String) : HResp (List String) :=
  if is_authenticated s then
    match get_audio_file root fs path with
    | .error e => .error e.status e.detail
    | .ok file_path => .ok file_path
  else .error 401 "Not authenticated"

/-- The JSON body returned by the progress API. -/
structure ProgressOut where
  position : ℚ
  duration : ℚ
  played : Bool
deriving DecidableEq

/-- The `GET /api/progress` handler: authentication gate, file validation,
then the stored record with zero defaults. -/
def get_progress_handler (root : List String) (fs : FS) (store : StoreMap)
    (s : Session) (file : String) : HResp ProgressOut :=
  if is_authenticated s then
    match get_audio_file root fs file with
    | .error e => .error e.status e.detail
    | .ok _ =>
        match dictGet store file with
        | none => .ok ⟨0, 0, false⟩
        | some progress =>
            .ok ⟨progress.position, progress.duration, progress.played⟩
  else .error 401 "Not authenticated"

/-- The JSON body of `POST /api/progress`. -/
structure ProgressPayload where
  file : String
  position : ℚ
  duration : ℚ
deriving DecidableEq

/-- Lines 362-369 of `src/main.py`: clamp position and duration at zero,
keep the sticky played flag from the existing record, and when at least 95%
of a positive duration is reached reset the position and mark played. -/
def set_progress_core (existing : Option ProgressRecord)
    (position duration : ℚ) : ProgressRecord :=
  let p := max position 0
  let d := max duration 0
  let played := playedOf existing
  if d > 0 ∧ p ≥ d * 0.95 then ⟨0, d, true⟩ else ⟨p, d, played⟩

/-- The `POST /api/progress` handler: authentication gate, file validation,
progress-policy update, store write, and echo of the stored values. -/
def set_progress_handler (root : List String) (fs : FS) (store : StoreMap)
    (s : Session) (payload : ProgressPayload) : HResp ProgressOut × StoreMap :=
  if is_authenticated s then
    match get_audio_file root fs payload.file with
    | .error e => (.error e.status e.detail, store)
    | .ok _ =>
        let record := set_progress_core (dictGet store payload.file)
          payload.position payload.duration
        (.ok ⟨record.position, record.duration, record.played⟩,
          dictInsert store payload.file record)
  else (.error 401 "Not authenticated", store)

/-- Membership in `parents p` is exactly being a proper ancestor: a strict
prefix of the component list. -/
theorem mem_parents {q p : List String} : q ∈ parents p ↔ q <+: p ∧ q ≠ p := by
  unfold parents
  rw [List.mem_reverse, List.mem_map]
  constructor
  · rintro ⟨k, hk, rfl⟩
    rw [List.mem_range] at hk
    refine ⟨ List.take_prefix k p, ?_⟩
    intro h
    have hlen := congrArg List.length h
    rw [List.length_take] at hlen
    omega
  · rintro ⟨hpre, hne⟩
    refine ⟨q.length, ?_, ?_⟩
    · rw [List.mem_range]
      rcases lt_or_eq_of_le hpre.length_le with h | h
      · exact h
      · exact absurd (hpre.eq_of_length h) hne
    · exact (List.prefix_iff_eq_take.mp hpre).symm

/-- Looking up the key just written returns the new payload. -/
theorem dictGet_dictInsert_self (m : StoreMap) (k : String) (v : ProgressRecord) :
    dictGet (dictInsert m k v) k = some v := by
  induction m with
  | nil => simp [dictInsert, dictGet]
  | cons hd tl ih =>
      obtain ⟨k₁, v₁⟩ := hd
      by_cases h : k₁ = k
      · simp [dictInsert, dictGet, h]
      · simp [dictInsert, dictGet, h, ih]

/-- Writing one key leaves the binding of every other key unchanged. -/
theorem dictGet_dictInsert_ne (m : StoreMap) (k k' : String) (v : ProgressRecord)
    (h : k' ≠ k) : dictGet (dictInsert m k v) k' = dictGet m k' := by
  induction m with
  | nil => simp [dictInsert, dictGet, Ne.symm h]
  | cons hd tl ih =>
      obtain ⟨k₁, v₁⟩ := hd
      by_cases h₁ : k₁ = k
      · subst h₁
        simp [dictInsert, dictGet, Ne.symm h]
      · simp only [dictInsert, if_neg h₁, dictGet]
        by_cases h₂ : k₁ = k'
        · simp [h₂]
        · simp [h₂, ih]

/-- The key set after a write is the old key set plus the written key. -/
theorem dictGet_dictInsert_isSome (m : StoreMap) (k k' : String)
    (v : ProgressRecord) :
    (dictGet (dictInsert m k v) k').isSome
      ↔ (dictGet m k').isSome ∨ k' = k := by
  by_cases h : k' = k
  · subst h
    simp [dictGet_dictInsert_self]
  · rw [dictGet_dictInsert_ne m k k' v h]
    simp [h]

/-- Within one sort-key class the entry order is the case-insensitive name
order. -/
theorem entryRel_names {a b : FSEntry} (h : a.isDir = b.isDir)
    (hr : entryRel a b) : strLE (pyLower a.name) (pyLower b.name) = true := by
  unfold entryRel entryLE at hr
  rwa [if_pos h] at hr

/-- The classification loop is a pair of filters and maps over its input. -/
theorem classify_eq (root dirp : List String) (store : StoreMap)
    (l : List FSEntry) :
    classify root dirp store l =
      ((l.filter (fun e => !pyStartsWith e.name '.' && e.isDir)).map
          (fun e => (⟨e.name, relOf root dirp e.name⟩ : DirectoryEntry)),
        (l.filter (fun e => !pyStartsWith e.name '.' && !e.isDir &&
            decide (pyLower (pySuffix e.name) ∈ AUDIO_EXTENSIONS))).map
          (fun e => (⟨e.name, relOf root dirp e.name,
            playedOf (dictGet store (relOf root dirp e.name))⟩ : AudioEntry))) := by
  induction l with
  | nil => rfl
  | cons e rest ih =>
      by_cases h₁ : pyStartsWith e.name '.' = true
      · simp [classify, ih, h₁]
      · by_cases h₂ : e.isDir = true
        · simp [classify, ih, h₁, h₂]
        · by_cases h₃ : pyLower (pySuffix e.name) ∈ AUDIO_EXTENSIONS
          · simp [classify, ih, h₁, h₂, h₃]
          · simp [classify, ih, h₁, h₂, h₃]

/-- The code-point order on character lists is total. -/
theorem charListLE_total : ∀ a b : List Char,
    charListLE a b = true ∨ charListLE b a = true
  | [], _ => Or.inl rfl
  | _ :: _, [] => Or.inr rfl
  | a₁ :: r₁, b₁ :: r₂ => by
      by_cases h : a₁ = b₁
      · subst h
        rcases charListLE_total r₁ r₂ with h₁ | h₁
        · exact Or.inl (by simp [charListLE, h₁])
        · exact Or.inr (by simp [charListLE, h₁])
      · rcases lt_or_gt_of_ne h with hlt | hgt
        · exact Or.inl (by simp [charListLE, h, hlt])
        · exact Or.inr (by simp [charListLE, Ne.symm h, hgt])

/-- The code-point order on character lists is transitive. -/
theorem charListLE_trans : ∀ {a b c : List Char},
    charListLE a b = true → charListLE b c = true → charListLE a c = true
  | [], _, _, _, _ => rfl
  | _ :: _, [], _, h₁, _ => by simp [charListLE] at h₁
  | _ :: _, _ :: _, [], _, h₂ => by simp [charListLE] at h₂
  | a₁ :: r₁, b₁ :: r₂, c₁ :: r₃, h₁, h₂ => by
      by_cases e₁ : a₁ = b₁ <;> by_cases e₂ : b₁ = c₁
      · subst e₁
        subst e₂
        simp only [charListLE, if_pos rfl] at h₁ h₂ ⊢
        exact charListLE_trans h₁ h₂
      · subst e₁
        simpa [charListLE, e₂] using h₂
      · subst e₂
        simpa [charListLE, e₁] using h₁
      · simp only [charListLE, if_neg e₁] at h₁
        simp only [charListLE, if_neg e₂] at h₂
        have hac : a₁ < c₁ := lt_trans (of_decide_eq_true h₁) (of_decide_eq_true h₂)
        simp [charListLE, ne_of_lt hac, hac]

/-- The sort-key order of `list_directory` is total. -/
theorem entryRel_total (a b : FSEntry) : entryRel a b ∨ entryRel b a := by
  unfold entryRel entryLE
  by_cases h : a.isDir = b.isDir
  · rw [if_pos h, if_pos h.symm]
    exact charListLE_total _ _
  · rw [if_neg h, if_neg (Ne.symm h)]
    cases ha : a.isDir
    · cases hb : b.isDir
      · exact absurd (ha.trans hb.symm) h
      · exact Or.inr rfl
    · exact Or.inl rfl

/-- The sort-key order of `list_directory` is transitive. -/
theorem entryRel_trans (a b c : FSEntry) (hab : entryRel a b)
    (hbc : entryRel b c) : entryRel a c := by
  unfold entryRel entryLE at hab hbc ⊢
  by_cases h₁ : a.isDir = b.isDir <;> by_cases h₂ : b.isDir = c.isDir
  · rw [if_pos h₁] at hab
    rw [if_pos h₂] at hbc
    rw [if_pos (h₁.trans h₂)]
    exact charListLE_trans hab hbc
  · rw [if_neg h₂] at hbc
    have hac : a.isDir ≠ c.isDir := fun hc => h₂ (h₁.symm.trans hc)
    rw [if_neg hac, h₁]
    exact hbc
  · rw [if_neg h₁] at hab
    have hac : a.isDir ≠ c.isDir := fun hc => h₁ (hc.trans h₂.symm)
    rw [if_neg hac]
    exact hab
  · rw [if_neg h₁] at hab
    rw [if_neg h₂] at hbc
    exact absurd (hab.trans hbc.symm) h₁

/-- C1: path confinement.  For a user-supplied relative path (a segment
list joined under the root), `validate_within_media_root` fails with the
`PathEscape` client error exactly when the canonicalized result is neither
the media root itself nor a path having the media root as a proper
ancestor; membership in `parents` is precisely being a proper ancestor;
whenever the canonical result stays within the root the validation
succeeds and returns that canonical path, which is the root or under the
root; and the empty string and `"."` both canonicalize to the root itself
and succeed. -/
theorem c1_path_confinement (root : List String) (segs : List Seg) :
    (validate_within_media_root root ⟨root, segs⟩ = .error pathEscapeError
        ↔ ¬ (resolveSegs root segs = root
              ∨ root ∈ parents (resolveSegs root segs)))
    ∧ (root ∈ parents (resolveSegs root segs)
        ↔ root <+: resolveSegs root segs ∧ root ≠ resolveSegs root segs)
    ∧ (root <+: resolveSegs root segs
        → validate_within_media_root root ⟨root, segs⟩
            = .ok (resolveSegs root segs))
    ∧ (∀ q, validate_within_media_root root ⟨root, segs⟩ = .ok q
        → q = resolveSegs root segs ∧ root <+: q)
    ∧ validate_within_media_root root (joinPath root "") = .ok root
    ∧ validate_within_media_root root (joinPath root ".") = .ok root := by
  have hval : validate_within_media_root root ⟨root, segs⟩
      = if root ∉ parents (resolveSegs root segs) ∧ resolveSegs root segs ≠ root
        then .error pathEscapeError else .ok (resolveSegs root segs) := rfl
  have hempty : validate_within_media_root root (joinPath root "") = .ok root := by
    show (if root ∉ parents root ∧ root ≠ root
        then (Except.error pathEscapeError : Except HTTPError (List String))
        else .ok root) = .ok root
    rw [if_neg (fun hc => hc.2 rfl)]
  have hdot : validate_within_media_root root (joinPath root ".") = .ok root := by
    show (if root ∉ parents root ∧ root ≠ root
        then (Except.error pathEscapeError : Except HTTPError (List String))
        else .ok root) = .ok root
    rw [if_neg (fun hc => hc.2 rfl)]
  by_cases hcond : resolveSegs root segs = root
      ∨ root ∈ parents (resolveSegs root segs)
  · have hok : validate_within_media_root root ⟨root, segs⟩
        = .ok (resolveSegs root segs) := by
      rw [hval, if_neg]
      rintro ⟨h₁, h₂⟩
      rcases hcond with h | h
      · exact h₂ h
      · exact h₁ h
    have hpre : root <+: resolveSegs root segs := by
      rcases hcond with h | h
      · rw [h]
      · exact (mem_parents.mp h).1
    refine ⟨?_, mem_parents, fun _ => hok, ?_, hempty, hdot⟩
    · rw [hok]
      constructor
      · intro h
        exact absurd h (by simp)
      · intro h
        exact absurd hcond h
    · intro q hq
      rw [hok] at hq
      have hq' := Except.ok.inj hq
      exact ⟨hq'.symm, hq'.symm ▸ hpre⟩
  · have hc' : root ∉ parents (resolveSegs root segs)
        ∧ resolveSegs root segs ≠ root := by
      push_neg at hcond
      exact ⟨hcond.2, hcond.1⟩
    have herr : validate_within_media_root root ⟨root, segs⟩
        = .error pathEscapeError := by
      rw [hval, if_pos hc']
    refine ⟨?_, mem_parents, ?_, ?_, hempty, hdot⟩
    · rw [herr]
      simp only [true_iff]
      exact hcond
    · intro hpre
      by_cases heq : resolveSegs root segs = root
      · exact absurd (Or.inl heq) hcond
      · exact absurd (Or.inr (mem_parents.mpr ⟨hpre, fun h => heq h.symm⟩)) hcond
    · intro q hq
      rw [herr] at hq
      exact absurd hq (by simp)

/-- Witness for C1 at a concrete input: the relative path `x` under root
`/media` resolves to `/media/x` and passes confinement. -/
theorem c1_path_confinement_witness :
    validate_within_media_root ["media"] ⟨["media"], [Seg.name "x"]⟩
      = .ok ["media", "x"] :=
  (c1_path_confinement ["media"] [Seg.name "x"]).2.2.1 ⟨["x"], rfl⟩

/-- The store written by the progress handler is the old store with the
file's key bound to the record computed by the update policy. -/
theorem set_progress_handler_store (root : List String) (fs : FS)
    (store : StoreMap) (s : Session) (payload : ProgressPayload)
    (fp : List String) (hauth : is_authenticated s = true)
    (hfile : get_audio_file root fs payload.file = .ok fp) :
    (set_progress_handler root fs store s payload).2
      = dictInsert store payload.file
          (set_progress_core (dictGet store payload.file)
            payload.position payload.duration) := by
  unfold set_progress_handler
  rw [if_pos hauth, hfile]

/-- At 96 of 100 the completion threshold fires: position resets, played
becomes true, whatever the existing record was. -/
theorem set_progress_core_at_96 (existing : Option ProgressRecord) :
    set_progress_core existing 96 100 = ⟨0, 100, true⟩ := by
  unfold set_progress_core
  rw [max_eq_left (by norm_num : (0:ℚ) ≤ 96),
    max_eq_left (by norm_num : (0:ℚ) ≤ 100)]
  rw [if_pos (by norm_num)]

/-- At 50 of 100 the threshold does not fire and the stored flag is the
existing one. -/
theorem set_progress_core_at_50 (existing : Option ProgressRecord)
    (h : playedOf existing = false) :
    set_progress_core existing 50 100 = ⟨50, 100, false⟩ := by
  unfold set_progress_core
  rw [max_eq_left (by norm_num : (0:ℚ) ≤ 50),
    max_eq_left (by norm_num : (0:ℚ) ≤ 100)]
  rw [if_neg (by norm_num), h]

/-- Once the existing record is played, every update stores played. -/
theorem set_progress_core_played (existing : Option ProgressRecord)
    (h : playedOf existing = true) (p d : ℚ) :
    (set_progress_core existing p d).played = true := by
  unfold set_progress_core
  by_cases hc : max d 0 > 0 ∧ max p 0 ≥ max d 0 * 0.95
  · rw [if_pos hc]
  · rw [if_neg hc]
    exact h

/-- With a non-positive duration the clamped duration is zero and the
threshold branch is unreachable. -/
theorem set_progress_core_nonpos (existing : Option ProgressRecord)
    (p d : ℚ) (hd : d ≤ 0) :
    set_progress_core existing p d = ⟨max p 0, max d 0, playedOf existing⟩ := by
  unfold set_progress_core
  rw [if_neg]
  rintro ⟨h₁, _⟩
  rw [max_eq_right hd] at h₁
  exact lt_irrefl 0 h₁

/-- C2: the progress update policy of `POST /api/progress` with
duration 100.  Position 96 (at least 95% of the duration) stores
`{position 0, duration 100, played true}` whatever the previous record
was; position 50 on a not-yet-played key stores
`{position 50, duration 100, played false}`; and once the stored record is
played, every later update for that key stores played true even at a
position below the threshold. -/
theorem c2_progress_policy (root : List String) (fs : FS) (store : StoreMap)
    (s : Session) (f : String) (fp : List String)
    (hauth : is_authenticated s = true)
    (hfile : get_audio_file root fs f = .ok fp) :
    dictGet (set_progress_handler root fs store s ⟨f, 96, 100⟩).2 f
        = some ⟨0, 100, true⟩
    ∧ (playedOf (dictGet store f) = false →
        dictGet (set_progress_handler root fs store s ⟨f, 50, 100⟩).2 f
          = some ⟨50, 100, false⟩)
    ∧ (playedOf (dictGet store f) = true → ∀ p d : ℚ,
        (dictGet (set_progress_handler root fs store s ⟨f, p, d⟩).2 f).map
            (fun r => r.played) = some true) := by
  refine ⟨?_, ?_, ?_⟩
  · rw [set_progress_handler_store root fs store s ⟨f, 96, 100⟩ fp hauth hfile,
      dictGet_dictInsert_self, set_progress_core_at_96]
  · intro hpl
    rw [set_progress_handler_store root fs store s ⟨f, 50, 100⟩ fp hauth hfile,
      dictGet_dictInsert_self, set_progress_core_at_50 _ hpl]
  · intro hpl p d
    rw [set_progress_handler_store root fs store s ⟨f, p, d⟩ fp hauth hfile,
      dictGet_dictInsert_self]
    simp [set_progress_core_played _ hpl p d]

/-- Witness for C2 at a concrete input: an authenticated session posting
96 of 100 for an existing audio file stores a played record with position
reset. -/
theorem c2_progress_policy_witness :
    dictGet (set_progress_handler ["media"]
        (fun p => if p = ["media", "a.mp3"] then some FSNode.file else none)
        [] ⟨true, none⟩ ⟨"a.mp3", 96, 100⟩).2 "a.mp3"
      = some ⟨0, 100, true⟩ :=
  (c2_progress_policy ["media"]
    (fun p => if p = ["media", "a.mp3"] then some FSNode.file else none)
    [] ⟨true, none⟩ "a.mp3" ["media", "a.mp3"] rfl rfl).1

/-- C10: a progress update with non-positive duration never fires the
completion threshold: the stored played flag is exactly the previously
stored one (false when no record existed, by the definition of
`playedOf`), the stored position is `max position 0` without any reset,
and the stored duration is `max duration 0`. -/
theorem c10_nonpositive_duration (root : List String) (fs : FS)
    (store : StoreMap) (s : Session) (f : String) (fp : List String)
    (p d : ℚ) (hauth : is_authenticated s = true)
    (hfile : get_audio_file root fs f = .ok fp) (hd : d ≤ 0) :
    (set_progress_handler root fs store s ⟨f, p, d⟩).2
        = dictInsert store f ⟨max p 0, max d 0, playedOf (dictGet store f)⟩
    ∧ dictGet (set_progress_handler root fs store s ⟨f, p, d⟩).2 f
        = some ⟨max p 0, max d 0, playedOf (dictGet store f)⟩ := by
  have h := set_progress_handler_store root fs store s ⟨f, p, d⟩ fp hauth hfile
  rw [set_progress_core_nonpos _ _ _ hd] at h
  exact ⟨h, by rw [h, dictGet_dictInsert_self]⟩

/-- Witness for C10 at a concrete input: duration -5 and position -3 store
a clamped, unplayed record. -/
theorem c10_nonpositive_duration_witness :
    dictGet (set_progress_handler ["media"]
        (fun p => if p = ["media", "a.mp3"] then some FSNode.file else none)
        [] ⟨true, none⟩ ⟨"a.mp3", -3, -5⟩).2 "a.mp3"
      = some ⟨max (-3 : ℚ) 0, max (-5 : ℚ) 0, playedOf (dictGet [] "a.mp3")⟩ :=
  (c10_nonpositive_duration ["media"]
    (fun p => if p = ["media", "a.mp3"] then some FSNode.file else none)
    [] ⟨true, none⟩ "a.mp3" ["media", "a.mp3"] (-3) (-5) rfl rfl
    (by norm_num)).2

/-- Loading a present file whose content is non-blank and decodes yields
the decoded mapping. -/
theorem load_content (decode : String → Option StoreMap) (s : String)
    (m : StoreMap) (hns : pyStrip s ≠ "") (hdec : decode s = some m) :
    ProgressStore.load decode (.content s) = m := by
  simp only [ProgressStore.load]
  rw [if_neg hns, hdec]

/-- Loading right after a set yields the just-written mapping, provided
the encoder output is non-blank and the decoder inverts the encoder on
it. -/
theorem load_after_set (decode : String → Option StoreMap)
    (encode : StoreMap → String) (file : FileState) (k : String)
    (pos dur : ℚ) (pl : Bool)
    (henc : pyStrip (encode (dictInsert (ProgressStore.load decode file) k
        ⟨pos, dur, pl⟩)) ≠ "")
    (hdec : decode (encode (dictInsert (ProgressStore.load decode file) k
        ⟨pos, dur, pl⟩))
      = some (dictInsert (ProgressStore.load decode file) k ⟨pos, dur, pl⟩)) :
    ProgressStore.load decode
        (ProgressStore.set decode encode file k pos dur pl)
      = dictInsert (ProgressStore.load decode file) k ⟨pos, dur, pl⟩ := by
  show ProgressStore.load decode (.content (encode _)) = _
  exact load_content decode _ _ henc hdec

/-- C3: round-trip.  `set(k, pos, dur, played)` immediately followed by
`get(k)` returns exactly the record `{pos, dur, played}`, assuming the
JSON encoder emits non-blank text that the decoder parses back (the
behavior of the `json` library on its own output). -/
theorem c3_set_get_roundtrip (decode : String → Option StoreMap)
    (encode : StoreMap → String) (file : FileState) (k : String)
    (pos dur : ℚ) (pl : Bool)
    (henc : pyStrip (encode (dictInsert (ProgressStore.load decode file) k
        ⟨pos, dur, pl⟩)) ≠ "")
    (hdec : decode (encode (dictInsert (ProgressStore.load decode file) k
        ⟨pos, dur, pl⟩))
      = some (dictInsert (ProgressStore.load decode file) k ⟨pos, dur, pl⟩)) :
    ProgressStore.get decode
        (ProgressStore.set decode encode file k pos dur pl) k
      = some ⟨pos, dur, pl⟩ := by
  unfold ProgressStore.get
  rw [load_after_set decode encode file k pos dur pl henc hdec]
  exact dictGet_dictInsert_self _ _ _

/-- Witness for C3 at a concrete input, with a decoder that parses the
concrete encoder output back to the written mapping. -/
theorem c3_set_get_roundtrip_witness :
    ProgressStore.get (fun _ => some [("a", ⟨1, 2, true⟩)])
        (ProgressStore.set (fun _ => some [("a", ⟨1, 2, true⟩)])
          (fun _ => "x") .missing "a" 1 2 true) "a"
      = some ⟨1, 2, true⟩ :=
  c3_set_get_roundtrip (fun _ => some [("a", ⟨1, 2, true⟩)]) (fun _ => "x")
    .missing "a" 1 2 true (by decide) rfl

/-- C9: frame property of `set`.  Writing key `k` leaves every other key's
record unchanged, and the key set afterwards is the old key set plus `k`
(so no record is ever removed; the store's API has no delete operation,
only `get` and `set`). -/
theorem c9_set_frame (decode : String → Option StoreMap)
    (encode : StoreMap → String) (file : FileState) (k k' : String)
    (pos dur : ℚ) (pl : Bool)
    (henc : pyStrip (encode (dictInsert (ProgressStore.load decode file) k
        ⟨pos, dur, pl⟩)) ≠ "")
    (hdec : decode (encode (dictInsert (ProgressStore.load decode file) k
        ⟨pos, dur, pl⟩))
      = some (dictInsert (ProgressStore.load decode file) k ⟨pos, dur, pl⟩)) :
    (k' ≠ k → ProgressStore.get decode
        (ProgressStore.set decode encode file k pos dur pl) k'
      = ProgressStore.get decode file k')
    ∧ ((ProgressStore.get decode
          (ProgressStore.set decode encode file k pos dur pl) k').isSome
        ↔ (ProgressStore.get decode file k').isSome ∨ k' = k) := by
  have hload := load_after_set decode encode file k pos dur pl henc hdec
  constructor
  · intro hne
    unfold ProgressStore.get
    rw [hload, dictGet_dictInsert_ne _ _ _ _ hne]
  · unfold ProgressStore.get
    rw [hload]
    exact dictGet_dictInsert_isSome _ _ _ _

/-- Witness for C9 at a concrete input: writing key `a` leaves key `b`
absent as before. -/
theorem c9_set_frame_witness :
    ProgressStore.get (fun _ => some [("a", ⟨1, 2, true⟩)])
        (ProgressStore.set (fun _ => some [("a", ⟨1, 2, true⟩)])
          (fun _ => "x") .missing "a" 1 2 true) "b"
      = ProgressStore.get (fun _ => some [("a", ⟨1, 2, true⟩)]) .missing "b" :=
  (c9_set_frame (fun _ => some [("a", ⟨1, 2, true⟩)]) (fun _ => "x")
    .missing "a" "b" 1 2 true (by decide) rfl).1 (by decide)

/-- C6: corrupt-file recovery.  A missing file, blank content, or content
the JSON decoder rejects all load as the empty mapping; `get` on such a
file finds nothing; and a subsequent `set` proceeds exactly as if starting
from an empty map.  `ProgressStore.load` is total, so the corruption is
never surfaced to the caller as an error. -/
theorem c6_corrupt_file_recovery (decode : String → Option StoreMap)
    (encode : StoreMap → String) (s k : String) (pos dur : ℚ) (pl : Bool) :
    ProgressStore.load decode .missing = []
    ∧ (pyStrip s = "" → ProgressStore.load decode (.content s) = [])
    ∧ (decode s = none → ProgressStore.load decode (.content s) = [])
    ∧ (decode s = none → ProgressStore.get decode (.content s) k = none)
    ∧ (decode s = none →
        ProgressStore.set decode encode (.content s) k pos dur pl
          = .content (encode (dictInsert [] k ⟨pos, dur, pl⟩))) := by
  have hload : decode s = none → ProgressStore.load decode (.content s) = [] := by
    intro hs
    simp only [ProgressStore.load]
    by_cases ht : pyStrip s = ""
    · rw [if_pos ht]
    · rw [if_neg ht, hs]
  refine ⟨rfl, ?_, hload, ?_, ?_⟩
  · intro ht
    simp only [ProgressStore.load]
    rw [if_pos ht]
  · intro hs
    unfold ProgressStore.get
    rw [hload hs]
    rfl
  · intro hs
    unfold ProgressStore.set
    rw [hload hs]

/-- Witness for C6 at a concrete input: content the decoder rejects loads
as the empty mapping and a set on it starts from the empty map. -/
theorem c6_corrupt_file_recovery_witness :
    ProgressStore.load (fun _ => none) (.content "not json") = []
    ∧ ProgressStore.set (fun _ => none) (fun _ => "") (.content "not json")
        "k" 1 2 false = .content "" :=
  ⟨(c6_corrupt_file_recovery (fun _ => none) (fun _ => "") "not json" "k"
      1 2 false).2.2.1 rfl,
   (c6_corrupt_file_recovery (fun _ => none) (fun _ => "") "not json" "k"
      1 2 false).2.2.2.2 rfl⟩

/-- A session whose key is absent mints and stores the fresh token. -/
theorem ensure_csrf_token_absent (s : Session) (mint : String)
    (h : s.csrf = none) :
    ensure_csrf_token s mint = (mint, { s with csrf := some mint }) := by
  unfold ensure_csrf_token
  rw [h]

/-- A session holding a non-empty token returns it unchanged. -/
theorem ensure_csrf_token_existing (s : Session) (t mint : String)
    (ht : s.csrf = some t) (htne : t ≠ "") :
    ensure_csrf_token s mint = (t, s) := by
  simp only [ensure_csrf_token, ht]
  rw [if_neg]
  intro h0
  exact htne ((String.isEmpty_iff t).mp h0)

/-- A stored non-empty ASCII token validates against itself. -/
theorem validate_csrf_token_self (s : Session) (t : String)
    (ht : s.csrf = some t) (htne : t ≠ "") (hta : strIsAscii t = true) :
    validate_csrf_token s t = true := by
  have ht0 : t.isEmpty = false := by
    rw [Bool.eq_false_iff]
    intro h0
    exact htne ((String.isEmpty_iff t).mp h0)
  simp [validate_csrf_token, ht, ht0, compare_digest, hta]

/-- A submitted token different from the stored one never validates. -/
theorem validate_csrf_token_ne (s : Session) (m t : String)
    (hs : s.csrf = some m) (hmt : m ≠ t) :
    validate_csrf_token s t = false := by
  simp only [validate_csrf_token, hs]
  by_cases h0 : (m.isEmpty || t.isEmpty) = true
  · rw [if_pos h0]
  · rw [if_neg h0]
    cases hc : strIsAscii t && strIsAscii m
    · simp [compare_digest, hc]
    · simp [compare_digest, hc]
      exact fun he => hmt he.symm

/-- A successful login (valid CSRF, correct password) sets the
authenticated flag, drops the old token and stores the freshly minted
one. -/
theorem login_submit_success (s : Session) (u pw next mint t : String)
    (uq : String → String) (ht : s.csrf = some t) (htne : t ≠ "")
    (hta : strIsAscii t = true) :
    login_submit s u pw t next pw uq mint
      = (.redirectTo (loginDestination next uq), ⟨true, some mint⟩) := by
  have hval := validate_csrf_token_self s t ht htne hta
  unfold login_submit
  rw [if_neg (by simp [hval]), if_pos rfl]
  rfl

/-- C4: CSRF token lifecycle.  On a fresh session `ensure_csrf_token`
returns the same token on both of two successive calls (the first minted
value); and a successful login rotates the token: the post-login session
stores the newly minted token and the pre-login token is rejected by
`validate_csrf_token` afterwards. -/
theorem c4_csrf_tokens (s₀ sa : Session) (m₁ m₂ m t u next pw : String)
    (uq : String → String)
    (hfresh : s₀.csrf = none) (hm₁ : m₁ ≠ "")
    (ht : sa.csrf = some t) (htne : t ≠ "") (hta : strIsAscii t = true)
    (hmt : m ≠ t) :
    (ensure_csrf_token s₀ m₁).1 = m₁
    ∧ (ensure_csrf_token (ensure_csrf_token s₀ m₁).2 m₂).1
        = (ensure_csrf_token s₀ m₁).1
    ∧ (login_submit sa u pw t next pw uq m).2.csrf = some m
    ∧ validate_csrf_token (login_submit sa u pw t next pw uq m).2 t
        = false := by
  have habs := ensure_csrf_token_absent s₀ m₁ hfresh
  have hlogin := login_submit_success sa u pw next m t uq ht htne hta
  refine ⟨?_, ?_, ?_, ?_⟩
  · rw [habs]
  · rw [habs]
    rw [ensure_csrf_token_existing { s₀ with csrf := some m₁ } m₁ m₂ rfl hm₁]
  · rw [hlogin]
  · rw [hlogin]
    exact validate_csrf_token_ne ⟨true, some m⟩ m t rfl hmt

/-- Witness for C4 at concrete inputs: two ensure calls on a fresh session
both return the first minted token, and after login with mint `m3` the old
token `tokenA` no longer validates. -/
theorem c4_csrf_tokens_witness :
    (ensure_csrf_token ⟨false, none⟩ "m1").1 = "m1"
    ∧ (ensure_csrf_token (ensure_csrf_token ⟨false, none⟩ "m1").2 "m2").1
        = (ensure_csrf_token ⟨false, none⟩ "m1").1
    ∧ (login_submit ⟨false, some "tokenA"⟩ "user" "pw123456" "tokenA" ""
        "pw123456" id "m3").2.csrf = some "m3"
    ∧ validate_csrf_token (login_submit ⟨false, some "tokenA"⟩ "user"
        "pw123456" "tokenA" "" "pw123456" id "m3").2 "tokenA" = false :=
  c4_csrf_tokens ⟨false, none⟩ ⟨false, some "tokenA"⟩ "m1" "m2" "m3"
    "tokenA" "user" "" "pw123456" id rfl (by decide) rfl (by decide)
    (by decide) (by decide)

/-- C8 counterexample: on a failed login with a valid CSRF token the form
does NOT carry a fresh token.  At this concrete input the re-rendered form
carries exactly `tok1`, the very token the session held before the failed
attempt (and the session still holds it afterwards), refuting the claimed
rotation-on-failure; the error message is the fixed string that names
neither field. -/
theorem c8_counterexample :
    (login_submit ⟨false, some "tok1"⟩ "u" "wrongpw" "tok1" "" "password123"
        id "freshmint").1
      = .loginFailed "Invalid username or password" "tok1"
    ∧ (login_submit ⟨false, some "tok1"⟩ "u" "wrongpw" "tok1" "" "password123"
        id "freshmint").2.csrf = some "tok1" :=
  ⟨rfl, rfl⟩

/-- C8 amended: on a login submission with a valid CSRF token and a wrong
password the handler re-renders the login form with the fixed error
message `Invalid username or password` (revealing neither which field was
wrong), and the form carries the session's existing CSRF token, the
session itself left unchanged — the token is not rotated by the failed
attempt. -/
theorem c8_failed_login_rerender (s : Session) (t u pw next authPw mint : String)
    (uq : String → String) (ht : s.csrf = some t) (htne : t ≠ "")
    (hta : strIsAscii t = true) (hpw : pw ≠ authPw) :
    login_submit s u pw t next authPw uq mint
      = (.loginFailed "Invalid username or password" t, s) := by
  have hval := validate_csrf_token_self s t ht htne hta
  unfold login_submit
  rw [if_neg (by simp [hval]), if_neg hpw]
  rw [ensure_csrf_token_existing s t mint ht htne]

/-- Witness for the amended C8 at a concrete input. -/
theorem c8_failed_login_rerender_witness :
    login_submit ⟨false, some "tok1"⟩ "u" "wrongpw" "tok1" "" "password123x"
        id "freshmint"
      = (.loginFailed "Invalid username or password" "tok1",
          ⟨false, some "tok1"⟩) :=
  c8_failed_login_rerender ⟨false, some "tok1"⟩ "tok1" "u" "wrongpw" ""
    "password123x" "freshmint" id rfl (by decide) (by decide) (by decide)

/-- C5: authentication gate.  For every session without the authenticated
flag, the index route returns a redirect to the login page, and the
API-style routes (`/media`, `GET /api/progress`, `POST /api/progress`)
fail with the 401 Unauthenticated client error; the results are stated for
arbitrary filesystem and store, which the early returns never consult, and
the progress store is returned unchanged. -/
theorem c5_unauthenticated_gate (root : List String) (fs : FS)
    (store : StoreMap) (s : Session) (path location file mint : String)
    (quoteF : String → String) (payload : ProgressPayload)
    (h : is_authenticated s = false) :
    index_handler root fs store s path location quoteF mint
        = (.redirect (login_redirect location quoteF), s)
    ∧ media_handler root fs s path = .error 401 "Not authenticated"
    ∧ get_progress_handler root fs store s file
        = .error 401 "Not authenticated"
    ∧ set_progress_handler root fs store s payload
        = (.error 401 "Not authenticated", store) := by
  have h' : ¬ (is_authenticated s = true) := by
    rw [h]
    simp
  refine ⟨?_, ?_, ?_, ?_⟩
  · unfold index_handler
    rw [if_neg h']
  · unfold media_handler
    rw [if_neg h']
  · unfold get_progress_handler
    rw [if_neg h']
  · unfold set_progress_handler
    rw [if_neg h']

/-- Witness for C5 at a concrete unauthenticated session. -/
theorem c5_unauthenticated_gate_witness :
    index_handler ["media"] (fun _ => none) [] ⟨false, none⟩ "x" "/?path=x"
        id "m"
      = (.redirect (login_redirect "/?path=x" id), ⟨false, none⟩)
    ∧ media_handler ["media"] (fun _ => none) ⟨false, none⟩ "x"
        = .error 401 "Not authenticated"
    ∧ get_progress_handler ["media"] (fun _ => none) [] ⟨false, none⟩ "f"
        = .error 401 "Not authenticated"
    ∧ set_progress_handler ["media"] (fun _ => none) [] ⟨false, none⟩
        ⟨"f", 1, 2⟩
        = (.error 401 "Not authenticated", []) :=
  c5_unauthenticated_gate ["media"] (fun _ => none) [] ⟨false, none⟩ "x"
    "/?path=x" "f" "m" id ⟨"f", 1, 2⟩ rfl

/-- Split a conjunction of boolean conditions. -/
theorem and_true_split {a b : Bool} (h : (a && b) = true) :
    a = true ∧ b = true :=
  (Iff.of_eq (Bool.and_eq_true a b)).mp h

/-- C7: directory listing.  For every existing confined directory,
`list_directory` builds its listing from the directory's children; entries
whose name starts with a dot are excluded while every other subdirectory
is included; the audio files included are exactly the non-hidden
non-directories whose extension, lowercased, is in the allow-list, each
annotated with the played flag looked up in the progress store (false when
no record exists, by `playedOf`); both output groups are ordered ascending
by case-insensitive name; and the concrete directory
`{a.mp3, B.wav, sub/, .hidden.mp3}` lists `[sub]` then `[a.mp3, B.wav]`
with `.hidden.mp3` excluded. -/
theorem c7_list_directory (root dirp : List String) (fs : FS)
    (store : StoreMap) (rel : String) (entries : List FSEntry)
    (hv : validate_within_media_root root (joinPath root rel) = .ok dirp)
    (hfs : fs dirp = some (.dir entries)) :
    list_directory root fs store rel
        = .ok (buildListing root dirp store entries)
    ∧ (∀ dE : DirectoryEntry,
        dE ∈ (buildListing root dirp store entries).directories ↔
          ∃ e, e ∈ entries ∧ e.isDir = true ∧ pyStartsWith e.name '.' = false
            ∧ dE = ⟨e.name, relOf root dirp e.name⟩)
    ∧ (∀ aE : AudioEntry,
        aE ∈ (buildListing root dirp store entries).audio_files ↔
          ∃ e, e ∈ entries ∧ e.isDir = false ∧ pyStartsWith e.name '.' = false
            ∧ pyLower (pySuffix e.name) ∈ AUDIO_EXTENSIONS
            ∧ aE = ⟨e.name, relOf root dirp e.name,
                playedOf (dictGet store (relOf root dirp e.name))⟩)
    ∧ List.Pairwise (fun d₁ d₂ : DirectoryEntry =>
        strLE (pyLower d₁.name) (pyLower d₂.name) = true)
        (buildListing root dirp store entries).directories
    ∧ List.Pairwise (fun a₁ a₂ : AudioEntry =>
        strLE (pyLower a₁.name) (pyLower a₂.name) = true)
        (buildListing root dirp store entries).audio_files
    ∧ (∀ k, dictGet store k = none → playedOf (dictGet store k) = false)
    ∧ buildListing ["media"] ["media"] []
        [⟨"a.mp3", false⟩, ⟨"B.wav", false⟩, ⟨"sub", true⟩,
          ⟨".hidden.mp3", false⟩]
      = ⟨[⟨"sub", "sub"⟩],
         [⟨"a.mp3", "a.mp3", false⟩, ⟨"B.wav", "B.wav", false⟩]⟩ := by
  have hdirs : (buildListing root dirp store entries).directories
      = ((List.insertionSort entryRel entries).filter
          (fun e => !pyStartsWith e.name '.' && e.isDir)).map
          (fun e => (⟨e.name, relOf root dirp e.name⟩ : DirectoryEntry)) := by
    show (classify root dirp store (List.insertionSort entryRel entries)).1 = _
    rw [classify_eq]
  have haud : (buildListing root dirp store entries).audio_files
      = ((List.insertionSort entryRel entries).filter
          (fun e => !pyStartsWith e.name '.' && !e.isDir &&
            decide (pyLower (pySuffix e.name) ∈ AUDIO_EXTENSIONS))).map
          (fun e => (⟨e.name, relOf root dirp e.name,
            playedOf (dictGet store (relOf root dirp e.name))⟩ : AudioEntry)) := by
    show (classify root dirp store (List.insertionSort entryRel entries)).2 = _
    rw [classify_eq]
  have hsorted : List.Pairwise entryRel (List.insertionSort entryRel entries) := by
    haveI : IsTotal FSEntry entryRel := ⟨entryRel_total⟩
    haveI : IsTrans FSEntry entryRel := ⟨fun a b c => entryRel_trans a b c⟩
    exact List.sorted_insertionSort entryRel entries
  refine ⟨?_, ?_, ?_, ?_, ?_, ?_, by decide⟩
  · simp only [list_directory, hv, hfs]
  · intro dE
    rw [hdirs]
    constructor
    · intro hmem
      obtain ⟨e, he, rfl⟩ := List.mem_map.mp hmem
      obtain ⟨hmem', hcond⟩ := List.mem_filter.mp he
      obtain ⟨hhid, hdir⟩ := and_true_split hcond
      refine ⟨e, (List.mem_insertionSort _).mp hmem', hdir, ?_, rfl⟩
      simpa using hhid
    · rintro ⟨e, hmem, hdir, hhid, rfl⟩
      exact List.mem_map.mpr ⟨e, List.mem_filter.mpr
        ⟨(List.mem_insertionSort _).mpr hmem, by simp [hhid, hdir]⟩, rfl⟩
  · intro aE
    rw [haud]
    constructor
    · intro hmem
      obtain ⟨e, he, rfl⟩ := List.mem_map.mp hmem
      obtain ⟨hmem', hcond⟩ := List.mem_filter.mp he
      obtain ⟨hcond', hext⟩ := and_true_split hcond
      obtain ⟨hhid, hdir⟩ := and_true_split hcond'
      refine ⟨e, (List.mem_insertionSort _).mp hmem', ?_, ?_, ?_, rfl⟩
      · simpa using hdir
      · simpa using hhid
      · exact of_decide_eq_true hext
    · rintro ⟨e, hmem, hdir, hhid, hext, rfl⟩
      exact List.mem_map.mpr ⟨e, List.mem_filter.mpr
        ⟨(List.mem_insertionSort _).mpr hmem, by simp [hhid, hdir, hext]⟩, rfl⟩
  · rw [hdirs]
    have hfil := hsorted.filter (fun e => !pyStartsWith e.name '.' && e.isDir)
    have hfil' : List.Pairwise (fun a b : FSEntry =>
        strLE (pyLower a.name) (pyLower b.name) = true)
        ((List.insertionSort entryRel entries).filter
          (fun e => !pyStartsWith e.name '.' && e.isDir)) := by
      refine List.Pairwise.imp_of_mem ?_ hfil
      intro a b ha hb hab
      have ha' := (and_true_split (List.mem_filter.mp ha).2).2
      have hb' := (and_true_split (List.mem_filter.mp hb).2).2
      exact entryRel_names (ha'.trans hb'.symm) hab
    exact List.Pairwise.map _ (fun a b hab => hab) hfil'
  · rw [haud]
    have hfil := hsorted.filter (fun e => !pyStartsWith e.name '.' && !e.isDir &&
      decide (pyLower (pySuffix e.name) ∈ AUDIO_EXTENSIONS))
    have hfil' : List.Pairwise (fun a b : FSEntry =>
        strLE (pyLower a.name) (pyLower b.name) = true)
        ((List.insertionSort entryRel entries).filter
          (fun e => !pyStartsWith e.name '.' && !e.isDir &&
            decide (pyLower (pySuffix e.name) ∈ AUDIO_EXTENSIONS))) := by
      refine List.Pairwise.imp_of_mem ?_ hfil
      intro a b ha hb hab
      have ha' := (and_true_split
        (and_true_split (List.mem_filter.mp ha).2).1).2
      have hb' := (and_true_split
        (and_true_split (List.mem_filter.mp hb).2).1).2
      have hab' : a.isDir = b.isDir := by
        rw [Bool.not_eq_true'] at ha' hb'
        rw [ha', hb']
      exact entryRel_names hab' hab
    exact List.Pairwise.map _ (fun a b hab => hab) hfil'
  · intro k hk
    rw [hk]
    rfl

/-- Witness for C7 at the concrete directory of the specification. -/
theorem c7_list_directory_witness :
    list_directory ["media"]
        (fun p => if p = ["media"] then
            some (FSNode.dir [⟨"a.mp3", false⟩, ⟨"B.wav", false⟩,
              ⟨"sub", true⟩, ⟨".hidden.mp3", false⟩]) else none)
        [] ""
      = .ok (buildListing ["media"] ["media"] []
          [⟨"a.mp3", false⟩, ⟨"B.wav", false⟩, ⟨"sub", true⟩,
            ⟨".hidden.mp3", false⟩]) :=
  (c7_list_directory ["media"] ["media"]
    (fun p => if p = ["media"] then
        some (FSNode.dir [⟨"a.mp3", false⟩, ⟨"B.wav", false⟩,
          ⟨"sub", true⟩, ⟨".hidden.mp3", false⟩]) else none)
    [] ""
    [⟨"a.mp3", false⟩, ⟨"B.wav", false⟩, ⟨"sub", true⟩,
      ⟨".hidden.mp3", false⟩] rfl rfl).1
